import Mathlib

/-!
Verification of the timeline filter engine (`src/timeline-filter.js`).

The JavaScript class `TimelineFilter` is embedded shallowly:

* JSON records become Lean structures; a field that may be absent in the
  JSON object becomes an `Option`.  All display fields that the filtering
  logic never inspects are collapsed into an opaque `other : String` field
  so that frame conditions ("all other fields copied unchanged") can be
  stated.
* JS `Set` objects holding string labels become `Finset String`
  (only membership and size are observed by the code).
* The JS expression `era.text.headline` throws a `TypeError` when
  `era.text` is `undefined`; fallible evaluation is modelled with
  `Except String`.
* The DOM and the external TimeLine renderer are out of scope (per the
  spec they are opaque collaborators); `applyFilters` is modelled as the
  data transformation it performs on `currentData`, and
  `updateFilterStatus` as the status string it writes.
-/

/-- The nested `text` object of an era record; `headline` is optional. -/
structure EraText where
  headline : Option String
deriving DecidableEq, Repr

/-- An era record: an optional nested `text` object plus opaque display
fields (collapsed into `other`). -/
structure Era where
  text : Option EraText
  other : String
deriving DecidableEq, Repr

/-- An event record: an optional `group` label plus opaque display fields. -/
structure Event where
  group : Option String
  other : String
deriving DecidableEq, Repr

/-- A timeline dataset: an `events` array, an optional `eras` array, and
all remaining top-level fields collapsed into `other`. -/
structure Dataset where
  events : List Event
  eras : Option (List Era)
  other : String
deriving DecidableEq, Repr

/-- JS truthiness of an optional string: present and non-empty. -/
def truthyStr : Option String → Bool
  | some s => s ≠ ""
  | none => false

/-- `getUniqueGroups`: collect `event.group` for every event whose group is
truthy into a `Set`, then sort the distinct labels ascending
(`Array.from(groups).sort()`). -/
def getUniqueGroups (d : Dataset) : List String :=
  (((d.events.filterMap Event.group).filter (fun s => s ≠ "")).dedup).insertionSort (· ≤ ·)

/-- The loop-body guard of `getUniqueEras`: the headline contributed by an
era record when both `era.text` and `era.text.headline` are truthy. -/
def eraLabel (e : Era) : Option String :=
  match e.text with
  | none => none
  | some t =>
      match t.headline with
      | none => none
      | some h => if h = "" then none else some h

/-- `getUniqueEras`: when `eras` is present, collect `era.text.headline`
for every era where both `era.text` and the headline are truthy, then sort
the distinct labels ascending. -/
def getUniqueEras (d : Dataset) : List String :=
  match d.eras with
  | none => []
  | some es => ((es.filterMap eraLabel).dedup).insertionSort (· ≤ ·)

/-- The two active filter sets (`activeGroupFilters`, `activeEraFilters`). -/
structure Selection where
  groups : Finset String
  eras : Finset String
deriving DecidableEq

/-- `this.activeGroupFilters.has(event.group)`: `has(undefined)` is
`false`, otherwise string membership. -/
def eventPasses (active : Finset String) (e : Event) : Bool :=
  match e.group with
  | none => false
  | some g => g ∈ active

/-- `this.activeEraFilters.has(era.text.headline)`: reading `.headline`
off an absent `text` object throws a `TypeError`; an absent headline gives
`has(undefined) = false`. -/
def eraPasses (active : Finset String) (e : Era) : Except String Bool :=
  match e.text with
  | none => Except.error "TypeError: cannot read headline of undefined"
  | some t =>
      match t.headline with
      | none => Except.ok false
      | some h => Except.ok (decide (h ∈ active))

/-- `Array.prototype.filter` with a predicate that may throw: elements are
tested left to right and the first exception aborts the whole call. -/
def filterE (p : α → Except String Bool) : List α → Except String (List α)
  | [] => Except.ok []
  | a :: l =>
      match p a with
      | Except.error e => Except.error e
      | Except.ok b =>
          match filterE p l with
          | Except.error e => Except.error e
          | Except.ok r => Except.ok (if b then a :: r else r)

/-- Lines 141-145 of `applyFilters`: filter `events` by group membership
when the group set is non-empty. -/
def filterEvents (orig : Dataset) (sel : Selection) : Dataset :=
  if 0 < sel.groups.card then
    { orig with events := orig.events.filter (eventPasses sel.groups) }
  else orig

/-- Lines 148-152 of `applyFilters`: filter `eras` by headline membership
when the era set is non-empty and `eras` is present (an absent predicate
input can throw inside the filter callback). -/
def filterEras (d1 : Dataset) (sel : Selection) : Except String Dataset :=
  match d1.eras with
  | none => Except.ok d1
  | some es =>
      if 0 < sel.eras.card then
        (filterE (eraPasses sel.eras) es).map (fun es2 => { d1 with eras := some es2 })
      else Except.ok d1

/-- The data transformation of `applyFilters`: start from a deep copy of
the original data, filter `events` by group, then filter `eras` by
headline. -/
def applyFilters (orig : Dataset) (sel : Selection) : Except String Dataset :=
  filterEras (filterEvents orig sel) sel

/-- Pure version of the era predicate, defined only for records whose
`text` object is present (where the code cannot throw). -/
def eraPassesB (active : Finset String) (e : Era) : Bool :=
  match e.text with
  | none => false
  | some t =>
      match t.headline with
      | none => false
      | some h => decide (h ∈ active)

/-- Well-formedness that rules out the `TypeError`: every era record has a
`text` object. -/
def erasWF (d : Dataset) : Prop :=
  ∀ es, d.eras = some es → ∀ e ∈ es, e.text.isSome = true

/-- `this.data.eras ? this.data.eras.length : 0` in `updateFilterStatus`. -/
def erasLen (d : Dataset) : Nat :=
  match d.eras with
  | some es => es.length
  | none => 0

/-- The mutable state of a `TimelineFilter` instance (the DOM handles and
the renderer are out of scope). -/
structure FilterState where
  originalData : Dataset
  currentData : Dataset
  activeGroupFilters : Finset String
  activeEraFilters : Finset String
deriving DecidableEq

/-- The constructor: deep-copies the dataset into both `originalData` and
`currentData` and starts with empty filter sets. -/
def mkFilterState (d : Dataset) : FilterState :=
  { originalData := d, currentData := d,
    activeGroupFilters := ∅, activeEraFilters := ∅ }

/-- Recompute `currentData` from `originalData` and the active sets
(the tail of every toggle/clear operation). -/
def runApply (s : FilterState) : Except String FilterState :=
  (applyFilters s.originalData ⟨s.activeGroupFilters, s.activeEraFilters⟩).map
    (fun d => { s with currentData := d })

/-- Flip membership of a label in an active set (add if absent, delete if
present) — the body of `toggleGroupFilter` / `toggleEraFilter`. -/
def toggleSet (s : Finset String) (l : String) : Finset String :=
  if l ∈ s then s.erase l else insert l s

/-- The user-facing operations that mutate filter state. -/
inductive Op where
  | toggleGroup (label : String)
  | toggleEra (label : String)
  | clearGroupFilters
  | clearEraFilters
deriving DecidableEq, Repr

/-- One operation: mutate the selection, then `applyFilters`. -/
def stepOp (s : FilterState) : Op → Except String FilterState
  | Op.toggleGroup l => runApply { s with activeGroupFilters := toggleSet s.activeGroupFilters l }
  | Op.toggleEra l => runApply { s with activeEraFilters := toggleSet s.activeEraFilters l }
  | Op.clearGroupFilters => runApply { s with activeGroupFilters := ∅ }
  | Op.clearEraFilters => runApply { s with activeEraFilters := ∅ }

/-- Run a sequence of user operations from a state. -/
def runOps (s : FilterState) : List Op → Except String FilterState
  | [] => Except.ok s
  | o :: os => (stepOp s o).bind (fun s2 => runOps s2 os)

/-- `Array.prototype.join(', ')`. -/
def joinParts : List String → String
  | [] => ""
  | [p] => p
  | p :: ps => p ++ ", " ++ joinParts ps

/-- `updateFilterStatus`: the summary string written to the status
element. -/
def statusText (s : FilterState) : String :=
  let totalEvents := s.originalData.events.length
  let filteredEvents := s.currentData.events.length
  let totalEras := erasLen s.originalData
  let filteredEras := erasLen s.currentData
  if s.activeGroupFilters.card = 0 ∧ s.activeEraFilters.card = 0 then
    "Showing all events"
  else
    let parts :=
      (if 0 < s.activeGroupFilters.card then
        [toString filteredEvents ++ "/" ++ toString totalEvents ++ " events"] else []) ++
      (if 0 < s.activeEraFilters.card then
        [toString filteredEras ++ "/" ++ toString totalEras ++ " eras"] else [])
    "Showing " ++ joinParts parts

/-! ## Helper lemmas -/

theorem filterEvents_events (d : Dataset) (sel : Selection) :
    (filterEvents d sel).events =
      if 0 < sel.groups.card then d.events.filter (eventPasses sel.groups) else d.events := by
  by_cases hg : 0 < sel.groups.card <;> simp [filterEvents, hg]

theorem filterEvents_eras (d : Dataset) (sel : Selection) :
    (filterEvents d sel).eras = d.eras := by
  by_cases hg : 0 < sel.groups.card <;> simp [filterEvents, hg]

theorem filterEvents_other (d : Dataset) (sel : Selection) :
    (filterEvents d sel).other = d.other := by
  by_cases hg : 0 < sel.groups.card <;> simp [filterEvents, hg]

theorem filterE_cons_ok {α : Type} {p : α → Except String Bool} {a : α} {l r : List α}
    (h : filterE p (a :: l) = Except.ok r) :
    ∃ b r2, p a = Except.ok b ∧ filterE p l = Except.ok r2 ∧ r = (if b then a :: r2 else r2) := by
  cases hpa : p a with
  | error e => simp [filterE, hpa] at h
  | ok b =>
      cases hfl : filterE p l with
      | error e => simp [filterE, hpa, hfl] at h
      | ok r2 =>
          refine ⟨b, r2, rfl, rfl, ?_⟩
          simp only [filterE, hpa, hfl, Except.ok.injEq] at h
          exact h.symm

theorem filterE_sublist {α : Type} {p : α → Except String Bool} :
    ∀ {l r : List α}, filterE p l = Except.ok r → r.Sublist l
  | [], r, h => by
      simp only [filterE, Except.ok.injEq] at h
      simp [← h]
  | a :: l, r, h => by
      obtain ⟨b, r2, _, hfl, hr⟩ := filterE_cons_ok h
      have ih := filterE_sublist hfl
      cases b with
      | false =>
          simp only [Bool.false_eq_true, if_neg] at hr
          subst hr
          exact ih.cons a
      | true =>
          simp only [if_pos] at hr
          subst hr
          exact ih.cons₂ a

theorem filterE_mem {α : Type} {p : α → Except String Bool} :
    ∀ {l r : List α}, filterE p l = Except.ok r →
      ∀ x, x ∈ r ↔ (x ∈ l ∧ p x = Except.ok true)
  | [], r, h => by
      simp only [filterE, Except.ok.injEq] at h
      simp [← h]
  | a :: l, r, h => by
      obtain ⟨b, r2, hpa, hfl, hr⟩ := filterE_cons_ok h
      intro x
      have ih := filterE_mem hfl x
      cases b with
      | true =>
          simp only [if_pos] at hr
          subst hr
          by_cases hxa : x = a
          · subst hxa; simp [hpa]
          · simp [List.mem_cons, hxa, ih]
      | false =>
          simp only [Bool.false_eq_true, if_neg] at hr
          subst hr
          by_cases hxa : x = a
          · subst hxa; simp [hpa, ih]
          · simp [List.mem_cons, hxa, ih]

theorem filterE_eq_filter {α : Type} {p : α → Except String Bool} {q : α → Bool} :
    ∀ {l : List α}, (∀ a ∈ l, p a = Except.ok (q a)) →
      filterE p l = Except.ok (l.filter q)
  | [], _ => by simp [filterE]
  | a :: l, h => by
      have ha : p a = Except.ok (q a) := h a (List.mem_cons_self a l)
      have ih := filterE_eq_filter (fun x hx => h x (List.mem_cons_of_mem a hx))
      cases hq : q a <;> rw [hq] at ha <;>
        simp [filterE, ha, hq, ih, List.filter_cons]

theorem eraPasses_of_isSome {active : Finset String} {e : Era}
    (h : e.text.isSome = true) :
    eraPasses active e = Except.ok (eraPassesB active e) := by
  cases ht : e.text with
  | none => rw [ht] at h; simp at h
  | some t => cases hh : t.headline <;> simp [eraPasses, eraPassesB, ht, hh]

theorem filterEras_ok_cases {d : Dataset} {sel : Selection} {v : Dataset}
    (h : filterEras d sel = Except.ok v) :
    (v = d ∧ (sel.eras.card = 0 ∨ d.eras = none)) ∨
    (∃ es es2, d.eras = some es ∧ 0 < sel.eras.card ∧
      filterE (eraPasses sel.eras) es = Except.ok es2 ∧ v = { d with eras := some es2 }) := by
  obtain ⟨evs, oeras, oth⟩ := d
  cases oeras with
  | none =>
      simp only [filterEras, Except.ok.injEq] at h
      exact Or.inl ⟨h.symm, Or.inr rfl⟩
  | some es =>
      by_cases he : 0 < sel.eras.card
      · simp only [filterEras, if_pos he] at h
        cases hf : filterE (eraPasses sel.eras) es with
        | error e => rw [hf] at h; simp [Except.map] at h
        | ok es2 =>
            rw [hf] at h
            simp only [Except.map, Except.ok.injEq] at h
            exact Or.inr ⟨es, es2, rfl, he, hf, h.symm⟩
      · simp only [filterEras, if_neg he, Except.ok.injEq] at h
        exact Or.inl ⟨h.symm, Or.inl (Nat.eq_zero_of_not_pos he)⟩

theorem filterEras_ok_events {d : Dataset} {sel : Selection} {v : Dataset}
    (h : filterEras d sel = Except.ok v) : v.events = d.events := by
  rcases filterEras_ok_cases h with ⟨rfl, _⟩ | ⟨es, es2, _, _, _, rfl⟩ <;> rfl

theorem filterEras_ok_other {d : Dataset} {sel : Selection} {v : Dataset}
    (h : filterEras d sel = Except.ok v) : v.other = d.other := by
  rcases filterEras_ok_cases h with ⟨rfl, _⟩ | ⟨es, es2, _, _, _, rfl⟩ <;> rfl

theorem applyFilters_ok_events {d : Dataset} {sel : Selection} {v : Dataset}
    (h : applyFilters d sel = Except.ok v) :
    v.events = (if 0 < sel.groups.card then d.events.filter (eventPasses sel.groups)
                else d.events) := by
  have h2 := filterEras_ok_events h
  rw [h2, filterEvents_events]

theorem applyFilters_ok_other {d : Dataset} {sel : Selection} {v : Dataset}
    (h : applyFilters d sel = Except.ok v) : v.other = d.other := by
  have h2 := filterEras_ok_other h
  rw [h2, filterEvents_other]

theorem applyFilters_ok_eras {d : Dataset} {sel : Selection} {v : Dataset}
    (h : applyFilters d sel = Except.ok v) :
    (v.eras = d.eras ∧ (sel.eras.card = 0 ∨ d.eras = none)) ∨
    (∃ es es2, d.eras = some es ∧ 0 < sel.eras.card ∧
      filterE (eraPasses sel.eras) es = Except.ok es2 ∧ v.eras = some es2) := by
  rcases filterEras_ok_cases h with ⟨rfl, hc⟩ | ⟨es, es2, hes, hcard, hf, rfl⟩
  · rw [filterEvents_eras] at hc ⊢
    exact Or.inl ⟨rfl, hc⟩
  · rw [filterEvents_eras] at hes
    exact Or.inr ⟨es, es2, hes, hcard, hf, rfl⟩

theorem applyFilters_empty (d : Dataset) : applyFilters d ⟨∅, ∅⟩ = Except.ok d := by
  have h1 : filterEvents d ⟨∅, ∅⟩ = d := by
    simp [filterEvents]
  rw [applyFilters, h1]
  obtain ⟨evs, oeras, oth⟩ := d
  cases oeras <;> simp [filterEras]

theorem filterEras_ok_of_WF {d1 : Dataset} {sel : Selection}
    (hWF : ∀ es, d1.eras = some es → ∀ e ∈ es, e.text.isSome = true) :
    ∃ v, filterEras d1 sel = Except.ok v := by
  obtain ⟨evs, oeras, oth⟩ := d1
  cases oeras with
  | none => exact ⟨_, rfl⟩
  | some es =>
      by_cases he : 0 < sel.eras.card
      · have hf : filterE (eraPasses sel.eras) es =
            Except.ok (es.filter (eraPassesB sel.eras)) :=
          filterE_eq_filter (fun a ha => eraPasses_of_isSome (hWF es rfl a ha))
        refine ⟨Dataset.mk evs (some (es.filter (eraPassesB sel.eras))) oth, ?_⟩
        simp only [filterEras, if_pos he, hf, Except.map]
      · refine ⟨Dataset.mk evs (some es) oth, ?_⟩
        simp only [filterEras, if_neg he]

theorem applyFilters_ok_of_WF {d : Dataset} (hWF : erasWF d) (sel : Selection) :
    ∃ v, applyFilters d sel = Except.ok v := by
  rw [applyFilters]
  refine filterEras_ok_of_WF ?_
  intro es hes
  rw [filterEvents_eras] at hes
  exact hWF es hes

theorem runApply_ok {s s' : FilterState} (h : runApply s = Except.ok s') :
    s'.originalData = s.originalData ∧
    s'.activeGroupFilters = s.activeGroupFilters ∧
    s'.activeEraFilters = s.activeEraFilters ∧
    applyFilters s.originalData ⟨s.activeGroupFilters, s.activeEraFilters⟩ =
      Except.ok s'.currentData := by
  unfold runApply at h
  cases ha : applyFilters s.originalData ⟨s.activeGroupFilters, s.activeEraFilters⟩ with
  | error e => rw [ha] at h; simp [Except.map] at h
  | ok v =>
      rw [ha] at h
      simp only [Except.map, Except.ok.injEq] at h
      rw [← h]
      exact ⟨rfl, rfl, rfl, rfl⟩

theorem runApply_eq_ok {s : FilterState} {v : Dataset}
    (h : applyFilters s.originalData ⟨s.activeGroupFilters, s.activeEraFilters⟩ =
      Except.ok v) :
    runApply s = Except.ok { s with currentData := v } := by
  unfold runApply
  rw [h]
  rfl

/-- The state invariant: `currentData` is exactly the result of
recomputing from `originalData` with the current selection. -/
def Consistent (s : FilterState) : Prop :=
  applyFilters s.originalData ⟨s.activeGroupFilters, s.activeEraFilters⟩ =
    Except.ok s.currentData

theorem stepOp_ok {s s' : FilterState} {o : Op} (h : stepOp s o = Except.ok s') :
    s'.originalData = s.originalData ∧ Consistent s' := by
  cases o with
  | toggleGroup l =>
      obtain ⟨h1, h2, h3, h4⟩ := runApply_ok h
      exact ⟨h1, by rw [Consistent, h1, h2, h3]; exact h4⟩
  | toggleEra l =>
      obtain ⟨h1, h2, h3, h4⟩ := runApply_ok h
      exact ⟨h1, by rw [Consistent, h1, h2, h3]; exact h4⟩
  | clearGroupFilters =>
      obtain ⟨h1, h2, h3, h4⟩ := runApply_ok h
      exact ⟨h1, by rw [Consistent, h1, h2, h3]; exact h4⟩
  | clearEraFilters =>
      obtain ⟨h1, h2, h3, h4⟩ := runApply_ok h
      exact ⟨h1, by rw [Consistent, h1, h2, h3]; exact h4⟩

theorem runOps_ok : ∀ {ops : List Op} {s s' : FilterState},
    runOps s ops = Except.ok s' → Consistent s →
    s'.originalData = s.originalData ∧ Consistent s'
  | [], s, s', h, hc => by
      simp only [runOps, Except.ok.injEq] at h
      rw [← h]
      exact ⟨rfl, hc⟩
  | o :: os, s, s', h, _ => by
      cases hso : stepOp s o with
      | error e => rw [runOps, hso] at h; simp [Except.bind] at h
      | ok s1 =>
          rw [runOps, hso] at h
          simp only [Except.bind] at h
          obtain ⟨ho, hcons⟩ := stepOp_ok hso
          obtain ⟨h1, h2⟩ := runOps_ok h hcons
          exact ⟨by rw [h1, ho], h2⟩

theorem toggleSet_toggleSet (A : Finset String) (l : String) :
    toggleSet (toggleSet A l) l = A := by
  by_cases h : l ∈ A
  · have h1 : toggleSet A l = A.erase l := if_pos h
    rw [h1, toggleSet, if_neg (Finset.not_mem_erase l A), Finset.insert_erase h]
  · have h1 : toggleSet A l = insert l A := if_neg h
    rw [h1, toggleSet, if_pos (Finset.mem_insert_self l A), Finset.erase_insert h]

theorem eraLabel_eq_some {e : Era} {s : String} :
    eraLabel e = some s ↔
      (s ≠ "" ∧ ∃ t, e.text = some t ∧ t.headline = some s) := by
  cases ht : e.text with
  | none => simp [eraLabel, ht]
  | some t =>
      cases hh : t.headline with
      | none => simp [eraLabel, ht, hh]
      | some h =>
          constructor
          · intro hL
            have hL2 : (if h = "" then none else some h : Option String) = some s := by
              rw [← hL]; simp [eraLabel, ht, hh]
            by_cases hhe : h = ""
            · rw [if_pos hhe] at hL2; cases hL2
            · rw [if_neg hhe] at hL2
              rw [Option.some.injEq] at hL2
              subst hL2
              exact ⟨hhe, t, rfl, hh⟩
          · rintro ⟨hs, t2, ht2, hh2⟩
            rw [Option.some.injEq] at ht2
            subst ht2
            rw [hh, Option.some.injEq] at hh2
            subst hh2
            simp [eraLabel, ht, hh, hs]

theorem getUniqueGroups_sorted (d : Dataset) :
    (getUniqueGroups d).Sorted (· ≤ ·) :=
  List.sorted_insertionSort _ _

theorem getUniqueGroups_nodup (d : Dataset) : (getUniqueGroups d).Nodup := by
  rw [getUniqueGroups]
  exact (List.perm_insertionSort _ _).nodup_iff.mpr (List.nodup_dedup _)

theorem getUniqueGroups_mem (d : Dataset) (s : String) :
    s ∈ getUniqueGroups d ↔ (s ≠ "" ∧ ∃ e ∈ d.events, e.group = some s) := by
  rw [getUniqueGroups]
  simp only [List.mem_insertionSort, List.mem_dedup, List.mem_filter,
    List.mem_filterMap, decide_eq_true_eq, ne_eq]
  tauto

theorem getUniqueEras_sorted (d : Dataset) :
    (getUniqueEras d).Sorted (· ≤ ·) := by
  obtain ⟨evs, oeras, oth⟩ := d
  cases oeras with
  | none => exact List.sorted_nil
  | some es => exact List.sorted_insertionSort _ _

theorem getUniqueEras_nodup (d : Dataset) : (getUniqueEras d).Nodup := by
  obtain ⟨evs, oeras, oth⟩ := d
  cases oeras with
  | none => exact List.nodup_nil
  | some es =>
      show ((es.filterMap eraLabel).dedup.insertionSort (· ≤ ·)).Nodup
      exact (List.perm_insertionSort _ _).nodup_iff.mpr (List.nodup_dedup _)

theorem getUniqueEras_mem (d : Dataset) (s : String) :
    s ∈ getUniqueEras d ↔
      (s ≠ "" ∧ ∃ es, d.eras = some es ∧
        ∃ e ∈ es, ∃ t, e.text = some t ∧ t.headline = some s) := by
  obtain ⟨evs, oeras, oth⟩ := d
  cases oeras with
  | none => simp [getUniqueEras]
  | some es =>
      show s ∈ (es.filterMap eraLabel).dedup.insertionSort (· ≤ ·) ↔ _
      simp only [List.mem_insertionSort, List.mem_dedup, List.mem_filterMap,
        eraLabel_eq_some, Option.some.injEq]
      constructor
      · rintro ⟨e, he, hs, t, ht, hh⟩
        exact ⟨hs, es, rfl, e, he, t, ht, hh⟩
      · rintro ⟨hs, es2, hes2, e, he, t, ht, hh⟩
        subst hes2
        exact ⟨e, he, hs, t, ht, hh⟩

theorem eventPasses_eq_true {active : Finset String} {e : Event} :
    eventPasses active e = true ↔ ∃ g, e.group = some g ∧ g ∈ active := by
  cases hg : e.group with
  | none => simp [eventPasses, hg]
  | some g => simp [eventPasses, hg]

theorem eraPassesB_eq_true {active : Finset String} {e : Era} :
    eraPassesB active e = true ↔
      ∃ t, e.text = some t ∧ ∃ hl, t.headline = some hl ∧ hl ∈ active := by
  cases ht : e.text with
  | none => simp [eraPassesB, ht]
  | some t => cases hh : t.headline <;> simp [eraPassesB, ht, hh]

/-! ## Concrete example data -/

/-- An event in group "A". -/
def eventA : Event := { group := some "A", other := "a1" }

/-- An event in group "B". -/
def eventB : Event := { group := some "B", other := "b1" }

/-- An event with no `group` field. -/
def eventNoGroup : Event := { group := none, other := "n1" }

/-- An era whose headline is "E1". -/
def eraE1 : Era := { text := some { headline := some "E1" }, other := "e1" }

/-- An era with a `text` object but no `headline`. -/
def eraNoHeadline : Era := { text := some { headline := none }, other := "e2" }

/-- An era record with no `text` object at all. -/
def eraNoText : Era := { text := none, other := "e3" }

/-- A well-formed dataset (every era has a `text` object). -/
def D2 : Dataset :=
  { events := [eventA, eventB, eventNoGroup],
    eras := some [eraE1, eraNoHeadline], other := "title2" }

/-- The filtered view of `D2` under era selection {"E1"}. -/
def VD2 : Dataset :=
  { events := [eventA, eventB, eventNoGroup],
    eras := some [eraE1], other := "title2" }

/-- A dataset with no eras at all. -/
def D3 : Dataset :=
  { events := [eventA, eventB, eventNoGroup], eras := none, other := "t3" }

/-- The filtered view of `D3` under group selection {"A"}. -/
def V3 : Dataset := { events := [eventA], eras := none, other := "t3" }

/-- A dataset containing an era record with no `text` object. -/
def bugDataset : Dataset :=
  { events := [], eras := some [eraE1, eraNoText], other := "title" }

theorem D2_WF : erasWF D2 := by
  intro es hes
  rw [show D2.eras = some [eraE1, eraNoHeadline] from rfl, Option.some.injEq] at hes
  subst hes
  decide

theorem D3_WF : erasWF D3 := by
  intro es hes
  exact absurd hes (by rw [show D3.eras = (none : Option (List Era)) from rfl]; simp)

/-! ## Claims -/

/-- Claim C1 (refuted by evaluation — code bug): the spec says every
FilterEngine operation is total and that a malformed era record (missing
its `text`/headline) is merely dropped, but `applyFilters` reads
`era.text.headline` without the `era.text` guard used in `getUniqueEras`,
so recomputing with a non-empty active-era-set over a dataset containing
an era record with no `text` object aborts with a `TypeError` instead of
dropping the record. -/
theorem C1_recompute_faults_on_missing_text :
    applyFilters bugDataset ⟨∅, {"X"}⟩ =
      Except.error "TypeError: cannot read headline of undefined" ∧
    runOps (mkFilterState bugDataset) [Op.toggleEra "X"] =
      Except.error "TypeError: cannot read headline of undefined" := by
  constructor <;> rfl

/-- Claim C2 counterexample: with the era filter {"X"} active on a dataset
whose eras are a headline-"X" era and an era with no `text` object, the
claim as stated demands a filtered view keeping exactly the "X" era and
dropping the text-less era; instead recompute aborts with a `TypeError`
and produces no view at all. -/
theorem C2_counterexample :
    applyFilters bugDataset ⟨∅, {"X"}⟩ =
      Except.error "TypeError: cannot read headline of undefined" ∧
    applyFilters bugDataset ⟨∅, {"X"}⟩ ≠
      Except.ok { events := [], eras := some [eraE1], other := "title" } := by
  refine ⟨rfl, ?_⟩
  intro hv
  rw [show applyFilters bugDataset ⟨∅, {"X"}⟩ =
    Except.error "TypeError: cannot read headline of undefined" from rfl] at hv
  cases hv

/-- Claim C2 (amended: restricted to datasets in which every era record
has a `text` object): recompute succeeds; if the active-era-set is empty
or the dataset has no eras sequence the eras pass unchanged; otherwise an
era is kept iff its `text.headline` is a member of the active-era-set —
so an era whose `text` object lacks a headline is excluded from the era
vocabulary, survives when no era filter is active, and is dropped once any
era filter is active.  (An era with no `text` object at all instead makes
recompute fault — the C1 bug.) -/
theorem C2_era_filtering (d : Dataset) (sel : Selection) (hWF : erasWF d) :
    ∃ v, applyFilters d sel = Except.ok v ∧
      ((sel.eras = ∅ ∨ d.eras = none) → v.eras = d.eras) ∧
      (∀ es, d.eras = some es → sel.eras ≠ ∅ →
        ∃ es2, v.eras = some es2 ∧
          ∀ e ∈ es, (e ∈ es2 ↔
            ∃ t, e.text = some t ∧ ∃ hl, t.headline = some hl ∧ hl ∈ sel.eras)) ∧
      (∀ s, s ∈ getUniqueEras d →
        ∃ es, d.eras = some es ∧ ∃ e ∈ es, ∃ t, e.text = some t ∧ t.headline = some s) := by
  obtain ⟨v, hv⟩ := applyFilters_ok_of_WF hWF sel
  refine ⟨v, hv, ?_, ?_, ?_⟩
  · intro hor
    rcases applyFilters_ok_eras hv with ⟨heq, _⟩ | ⟨es, es2, hes, hcard, _, _⟩
    · exact heq
    · rcases hor with hsel | hnone
      · rw [hsel, Finset.card_empty] at hcard
        exact absurd hcard (Nat.lt_irrefl 0)
      · rw [hnone] at hes
        cases hes
  · intro es hes hne
    rcases applyFilters_ok_eras hv with ⟨_, hz⟩ | ⟨es3, es2, hes3, _, hf, hvs⟩
    · rcases hz with hz0 | hznone
      · exact absurd (Finset.card_eq_zero.mp hz0) hne
      · rw [hznone] at hes
        cases hes
    · rw [hes] at hes3
      rw [Option.some.injEq] at hes3
      subst hes3
      refine ⟨es2, hvs, ?_⟩
      intro e he
      rw [filterE_mem hf e]
      have hp : eraPasses sel.eras e = Except.ok (eraPassesB sel.eras e) :=
        eraPasses_of_isSome (hWF es hes e he)
      rw [hp]
      simp only [Except.ok.injEq]
      rw [show (eraPassesB sel.eras e = true) ↔ _ from eraPassesB_eq_true]
      tauto
  · intro s hs
    obtain ⟨-, hrest⟩ := (getUniqueEras_mem d s).mp hs
    exact hrest

/-- Witness for the amended C2 at a concrete dataset: filtering `D2` by
era label "E1" keeps the "E1" era and drops the headline-less era. -/
theorem C2_era_filtering_witness :
    applyFilters D2 ⟨∅, {"E1"}⟩ = Except.ok VD2 ∧ VD2.eras = some [eraE1] := by
  obtain ⟨v, hv, -, -, -⟩ := C2_era_filtering D2 ⟨∅, {"E1"}⟩ D2_WF
  have hveq : v = VD2 := by
    have h2 : (Except.ok v : Except String Dataset) = Except.ok VD2 := by
      rw [← hv]; rfl
    rw [Except.ok.injEq] at h2
    exact h2
  subst hveq
  exact ⟨hv, rfl⟩

/-- Claim C3: with an empty active-group-set every event passes; with a
non-empty one, the filtered events are exactly the original events whose
`group` is a member of the active set (events with no group or an
unselected group are dropped). -/
theorem C3_group_filtering (d : Dataset) (sel : Selection) (v : Dataset)
    (h : applyFilters d sel = Except.ok v) :
    (sel.groups = ∅ → v.events = d.events) ∧
    (sel.groups ≠ ∅ →
      v.events = d.events.filter (eventPasses sel.groups) ∧
      ∀ e ∈ d.events, (e ∈ v.events ↔ ∃ g, e.group = some g ∧ g ∈ sel.groups)) := by
  have hev := applyFilters_ok_events h
  constructor
  · intro hg
    rw [hev, if_neg]
    rw [hg, Finset.card_empty]
    exact Nat.lt_irrefl 0
  · intro hg
    have hpos : 0 < sel.groups.card :=
      Finset.card_pos.mpr (Finset.nonempty_iff_ne_empty.mpr hg)
    rw [hev, if_pos hpos]
    refine ⟨rfl, ?_⟩
    intro e he
    rw [List.mem_filter]
    rw [show (eventPasses sel.groups e = true) ↔ _ from eventPasses_eq_true]
    tauto

/-- Witness for C3: filtering `D3` by group "A" keeps exactly the events
whose group is "A", and the no-group event is dropped. -/
theorem C3_group_filtering_witness :
    V3.events = D3.events.filter (eventPasses {"A"}) ∧ eventNoGroup ∉ V3.events := by
  have h := (C3_group_filtering D3 ⟨{"A"}, ∅⟩ V3 rfl).2 (by decide)
  refine ⟨h.1, ?_⟩
  intro hmem
  obtain ⟨g, hg, hgmem⟩ := (h.2 eventNoGroup (by decide)).mp hmem
  rw [show eventNoGroup.group = (none : Option String) from rfl] at hg
  cases hg

/-- Claim C6: recompute with both active-sets empty is the identity on the
dataset — every event and era of the original dataset is returned
unchanged. -/
theorem C6_empty_selection_identity (d : Dataset) :
    applyFilters d ⟨∅, ∅⟩ = Except.ok d :=
  applyFilters_empty d

/-- The state reached from `D2` by toggleGroup "A", toggleEra "E1",
clearGroupFilters. -/
def S4 : FilterState :=
  { originalData := D2, currentData := VD2,
    activeGroupFilters := ∅, activeEraFilters := {"E1"} }

/-- An event whose `group` is the empty string (falsy in JS). -/
def eventEmptyGroup : Event := { group := some "", other := "z1" }

/-- A dataset with out-of-order, duplicated, empty and missing labels. -/
def D5 : Dataset :=
  { events := [eventB, eventA, eventB, eventNoGroup, eventEmptyGroup],
    eras := some [eraE1, eraNoHeadline], other := "t5" }

/-- Claim C4: after any error-free sequence of toggle/clear operations,
the current filtered view equals a fresh recompute from the original
dataset with the current selection alone, and the stored original dataset
is exactly the dataset given at construction — no operation mutates it. -/
theorem C4_pure_function_of_selection (d : Dataset) (ops : List Op) (s' : FilterState)
    (h : runOps (mkFilterState d) ops = Except.ok s') :
    s'.originalData = d ∧
    applyFilters d ⟨s'.activeGroupFilters, s'.activeEraFilters⟩ =
      Except.ok s'.currentData := by
  have hc : Consistent (mkFilterState d) := applyFilters_empty d
  obtain ⟨h1, h2⟩ := runOps_ok h hc
  have ho : s'.originalData = d := h1
  refine ⟨ho, ?_⟩
  rw [← ho]
  exact h2

/-- Witness for C4: running toggleGroup "A" then toggleEra "E1" then
clearGroupFilters on `D2` reaches a state whose view is the fresh
recompute of the final selection and whose original dataset is `D2`. -/
theorem C4_pure_function_witness :
    S4.originalData = D2 ∧
    applyFilters D2 ⟨S4.activeGroupFilters, S4.activeEraFilters⟩ =
      Except.ok S4.currentData :=
  C4_pure_function_of_selection D2
    [Op.toggleGroup "A", Op.toggleEra "E1", Op.clearGroupFilters] S4 rfl

/-- Claim C5: each vocabulary lists each distinct non-empty label exactly
once (no duplicates), sorted ascending, and membership is exactly the
non-empty group labels of events / headline labels of eras; an empty
dataset yields empty vocabularies since no event or era can witness
membership. -/
theorem C5_vocabularies (d : Dataset) :
    (getUniqueGroups d).Sorted (· ≤ ·) ∧ (getUniqueGroups d).Nodup ∧
    (∀ s, s ∈ getUniqueGroups d ↔ (s ≠ "" ∧ ∃ e ∈ d.events, e.group = some s)) ∧
    (getUniqueEras d).Sorted (· ≤ ·) ∧ (getUniqueEras d).Nodup ∧
    (∀ s, s ∈ getUniqueEras d ↔
      (s ≠ "" ∧ ∃ es, d.eras = some es ∧
        ∃ e ∈ es, ∃ t, e.text = some t ∧ t.headline = some s)) :=
  ⟨getUniqueGroups_sorted d, getUniqueGroups_nodup d, getUniqueGroups_mem d,
   getUniqueEras_sorted d, getUniqueEras_nodup d, getUniqueEras_mem d⟩

/-- Witness for C5 at a concrete out-of-order dataset with duplicate,
empty and missing labels. -/
theorem C5_vocabularies_witness :
    (getUniqueGroups D5).Sorted (· ≤ ·) ∧ (getUniqueGroups D5).Nodup ∧
    ("A" ∈ getUniqueGroups D5) ∧ ("" ∉ getUniqueGroups D5) ∧
    ("E1" ∈ getUniqueEras D5) := by
  obtain ⟨hs, hn, hmemG, -, -, hmemE⟩ := C5_vocabularies D5
  refine ⟨hs, hn, ?_, ?_, ?_⟩
  · exact (hmemG "A").mpr ⟨by decide, eventA, by decide, rfl⟩
  · intro hmem
    exact absurd rfl ((hmemG "").mp hmem).1
  · refine (hmemE "E1").mpr ⟨by decide, [eraE1, eraNoHeadline], rfl, eraE1, by decide,
      { headline := some "E1" }, rfl, rfl⟩

/-- Claim C7: toggling the same label twice in succession (group or era)
returns the active-set to its prior value and the recomputed filtered
view to its prior result, for any state satisfying the recompute
invariant over well-formed data (where recompute cannot fault). -/
theorem C7_toggle_twice_id (s : FilterState) (g e : String)
    (hWF : erasWF s.originalData)
    (hCons : applyFilters s.originalData ⟨s.activeGroupFilters, s.activeEraFilters⟩ =
      Except.ok s.currentData) :
    runOps s [Op.toggleGroup g, Op.toggleGroup g] = Except.ok s ∧
    runOps s [Op.toggleEra e, Op.toggleEra e] = Except.ok s := by
  obtain ⟨od, cd, A, E⟩ := s
  constructor
  · obtain ⟨v1, hv1⟩ := applyFilters_ok_of_WF hWF ⟨toggleSet A g, E⟩
    have h1 : stepOp (FilterState.mk od cd A E) (Op.toggleGroup g) =
        Except.ok (FilterState.mk od v1 (toggleSet A g) E) :=
      runApply_eq_ok hv1
    have hv2 : applyFilters od ⟨toggleSet (toggleSet A g) g, E⟩ = Except.ok cd := by
      rw [toggleSet_toggleSet]
      exact hCons
    have h2 : stepOp (FilterState.mk od v1 (toggleSet A g) E) (Op.toggleGroup g) =
        Except.ok (FilterState.mk od cd (toggleSet (toggleSet A g) g) E) :=
      runApply_eq_ok hv2
    rw [toggleSet_toggleSet] at h2
    simp only [runOps]
    rw [h1]
    simp only [Except.bind]
    rw [h2]
  · obtain ⟨v1, hv1⟩ := applyFilters_ok_of_WF hWF ⟨A, toggleSet E e⟩
    have h1 : stepOp (FilterState.mk od cd A E) (Op.toggleEra e) =
        Except.ok (FilterState.mk od v1 A (toggleSet E e)) :=
      runApply_eq_ok hv1
    have hv2 : applyFilters od ⟨A, toggleSet (toggleSet E e) e⟩ = Except.ok cd := by
      rw [toggleSet_toggleSet]
      exact hCons
    have h2 : stepOp (FilterState.mk od v1 A (toggleSet E e)) (Op.toggleEra e) =
        Except.ok (FilterState.mk od cd A (toggleSet (toggleSet E e) e)) :=
      runApply_eq_ok hv2
    rw [toggleSet_toggleSet] at h2
    simp only [runOps]
    rw [h1]
    simp only [Except.bind]
    rw [h2]

/-- Witness for C7 from the freshly constructed state over `D2`: a double
group toggle and a double era toggle each restore the state exactly. -/
theorem C7_toggle_twice_witness :
    runOps (mkFilterState D2) [Op.toggleGroup "A", Op.toggleGroup "A"] =
      Except.ok (mkFilterState D2) ∧
    runOps (mkFilterState D2) [Op.toggleEra "E1", Op.toggleEra "E1"] =
      Except.ok (mkFilterState D2) :=
  C7_toggle_twice_id (mkFilterState D2) "A" "E1" D2_WF (applyFilters_empty D2)

/-- Claim C8: `updateFilterStatus` writes "Showing all events" exactly
when both active-sets are empty; otherwise it writes "Showing " followed
by a comma-joined list containing the events fraction iff the group set
is non-empty and the eras fraction iff the era set is non-empty, the
counts being the filtered-view and original-dataset sequence lengths. -/
theorem C8_status_text (s : FilterState) :
    (s.activeGroupFilters = ∅ ∧ s.activeEraFilters = ∅ →
      statusText s = "Showing all events") ∧
    (s.activeGroupFilters ≠ ∅ ∧ s.activeEraFilters = ∅ →
      statusText s = "Showing " ++ (toString s.currentData.events.length ++ "/" ++
        toString s.originalData.events.length ++ " events")) ∧
    (s.activeGroupFilters = ∅ ∧ s.activeEraFilters ≠ ∅ →
      statusText s = "Showing " ++ (toString (erasLen s.currentData) ++ "/" ++
        toString (erasLen s.originalData) ++ " eras")) ∧
    (s.activeGroupFilters ≠ ∅ ∧ s.activeEraFilters ≠ ∅ →
      statusText s = "Showing " ++ (toString s.currentData.events.length ++ "/" ++
        toString s.originalData.events.length ++ " events" ++ ", " ++
        (toString (erasLen s.currentData) ++ "/" ++
          toString (erasLen s.originalData) ++ " eras"))) := by
  obtain ⟨od, cd, A, E⟩ := s
  refine ⟨?_, ?_, ?_, ?_⟩
  · rintro ⟨hA, hE⟩
    subst hA
    subst hE
    simp [statusText]
  · rintro ⟨hA, hE⟩
    subst hE
    have hA0 : A.card ≠ 0 := fun hz => hA (Finset.card_eq_zero.mp hz)
    have hApos : 0 < A.card := Nat.pos_of_ne_zero hA0
    simp [statusText, joinParts, hA0, hApos]
  · rintro ⟨hA, hE⟩
    subst hA
    have hE0 : E.card ≠ 0 := fun hz => hE (Finset.card_eq_zero.mp hz)
    have hEpos : 0 < E.card := Nat.pos_of_ne_zero hE0
    simp [statusText, joinParts, hE0, hEpos]
  · rintro ⟨hA, hE⟩
    have hA0 : A.card ≠ 0 := fun hz => hA (Finset.card_eq_zero.mp hz)
    have hApos : 0 < A.card := Nat.pos_of_ne_zero hA0
    have hE0 : E.card ≠ 0 := fun hz => hE (Finset.card_eq_zero.mp hz)
    have hEpos : 0 < E.card := Nat.pos_of_ne_zero hE0
    simp [statusText, joinParts, hA0, hApos, hE0, hEpos]

/-- The filtered view of `D2` under selection ({"A"}, {"E1"}). -/
def V10 : Dataset :=
  { events := [eventA], eras := some [eraE1], other := "title2" }

/-- A dataset with 10 events (4 in group "A") and 3 eras, matching the
spec's status-text example. -/
def D8 : Dataset :=
  { events :=
      [ { group := some "A", other := "1" }, { group := some "A", other := "2" },
        { group := some "A", other := "3" }, { group := some "A", other := "4" },
        { group := some "B", other := "5" }, { group := some "B", other := "6" },
        { group := some "C", other := "7" }, { group := some "C", other := "8" },
        { group := none, other := "9" }, { group := none, other := "10" } ],
    eras := some [eraE1, eraNoHeadline, eraNoHeadline], other := "t8" }

/-- The filtered view of `D8` under group selection {"A"}. -/
def V8 : Dataset :=
  { events :=
      [ { group := some "A", other := "1" }, { group := some "A", other := "2" },
        { group := some "A", other := "3" }, { group := some "A", other := "4" } ],
    eras := some [eraE1, eraNoHeadline, eraNoHeadline], other := "t8" }

/-- The state of `D8` after toggleGroup "A". -/
def S8 : FilterState :=
  { originalData := D8, currentData := V8,
    activeGroupFilters := {"A"}, activeEraFilters := ∅ }

/-- Witness for C8 at the spec's example: 10 events, group "A" matching 4,
no era filter — the status reads "Showing 4/10 events", and it is indeed
the state reached by toggling group "A". -/
theorem C8_status_text_witness :
    runOps (mkFilterState D8) [Op.toggleGroup "A"] = Except.ok S8 ∧
    statusText S8 = "Showing 4/10 events" := by
  refine ⟨rfl, ?_⟩
  have h := (C8_status_text S8).2.1 ⟨by decide, rfl⟩
  rw [h]
  rfl

/-- Claim C9: recompute only replaces the `events` and `eras` sequences;
every other field of the dataset appears unchanged in the filtered view. -/
theorem C9_frame_other_fields (d : Dataset) (sel : Selection) (v : Dataset)
    (h : applyFilters d sel = Except.ok v) : v.other = d.other :=
  applyFilters_ok_other h

/-- Witness for C9: the view of `D2` under era selection {"E1"} keeps the
opaque top-level fields of `D2` unchanged. -/
theorem C9_frame_witness : VD2.other = D2.other :=
  C9_frame_other_fields D2 ⟨∅, {"E1"}⟩ VD2 rfl

/-- Claim C10: the events kept by recompute appear in the same relative
order as in the original dataset, and likewise for the kept eras — the
filtered sequences are sublists of the originals. -/
theorem C10_order_preserved (d : Dataset) (sel : Selection) (v : Dataset)
    (h : applyFilters d sel = Except.ok v) :
    v.events.Sublist d.events ∧
    (∀ es es2, d.eras = some es → v.eras = some es2 → es2.Sublist es) := by
  constructor
  · have hev := applyFilters_ok_events h
    by_cases hg : 0 < sel.groups.card
    · rw [hev, if_pos hg]
      exact List.filter_sublist _
    · rw [hev, if_neg hg]
  · intro es es2 hes hvs
    rcases applyFilters_ok_eras h with ⟨heq, _⟩ | ⟨es3, es4, hes3, _, hf, hvs4⟩
    · rw [heq, hes, Option.some.injEq] at hvs
      subst hvs
      exact List.Sublist.refl _
    · rw [hes] at hes3
      rw [Option.some.injEq] at hes3
      subst hes3
      rw [hvs4, Option.some.injEq] at hvs
      subst hvs
      exact filterE_sublist hf

/-- Witness for C10: the view of `D2` under selection ({"A"}, {"E1"}) has
its kept event and era in original relative order (sublists). -/
theorem C10_order_witness :
    V10.events.Sublist D2.events ∧
    ([eraE1] : List Era).Sublist [eraE1, eraNoHeadline] := by
  have h := C10_order_preserved D2 ⟨{"A"}, {"E1"}⟩ V10 rfl
  exact ⟨h.1, h.2 [eraE1, eraNoHeadline] [eraE1] rfl rfl⟩

/-- Witness for C6 at a concrete dataset. -/
theorem C6_empty_selection_witness : applyFilters D2 ⟨∅, ∅⟩ = Except.ok D2 :=
  C6_empty_selection_identity D2
